import Mathlib

/-!
Verification development for the UTM-SYSTEM repository.

The repository source is the browser client `src/client/src/app/page.tsx`.
Its data model (`Flight`, `TelemetryData`, `RestrictedZone`, the flight
form) and its handlers (`createFlight`, `simulateFlight`, `addWaypoint`,
`removeWaypoint`, `getStatusColor`, `getStatusText`, the websocket
`onmessage` handler) are embedded below as Lean definitions.  JavaScript
numbers are modelled as rationals, with `NaN` modelled as `Option.none`
where truthiness of a parsed number matters; JavaScript truthiness of
values is modelled explicitly where the code branches on it.

The server-side core (GeofenceEngine, FlightRegistry, FlightAuthorizer)
is not part of the repository source; where a claim depends on it, it is
modelled from the design document (definitions marked
`Modelled from the spec:`).
-/

namespace UTM

/-! ## Data model (types from page.tsx lines 26-76) -/

/-- The `status` field of a `Flight`:
`"pending" | "approved" | "rejected" | "active" | "completed"`. -/
inductive FStatus where
  | pending
  | approved
  | rejected
  | active
  | completed
deriving DecidableEq, Repr

/-- One element of `waypoints: Array<{ lat: number; lng: number }>`. -/
structure Waypoint where
  lat : ℚ
  lng : ℚ
deriving DecidableEq, Repr

/-- `RestrictedZone.bounds` from page.tsx lines 70-75. -/
structure ZoneBounds where
  north : ℚ
  south : ℚ
  east : ℚ
  west : ℚ
deriving DecidableEq, Repr

/-- `RestrictedZone` from page.tsx lines 68-76. -/
structure RestrictedZone where
  name : String
  bounds : ZoneBounds
deriving DecidableEq, Repr

/-- The client `Flight` interface (page.tsx lines 44-56).  `violations`
is declared optional on every status, hence `Option (List String)`. -/
structure Flight where
  id : String
  drone_id : String
  pilot_id : String
  start_time : String
  end_time : String
  altitude : ℚ
  waypoints : List Waypoint
  description : Option String
  status : FStatus
  created_at : String
  violations : Option (List String)
deriving DecidableEq, Repr

/-- `TelemetryData` from page.tsx lines 58-66. -/
structure TelemetryData where
  drone_id : String
  lat : ℚ
  lng : ℚ
  altitude : ℚ
  speed : ℚ
  battery : ℚ
  timestamp : String
deriving DecidableEq, Repr

/-- The flight form state (page.tsx lines 106-114). -/
structure FlightForm where
  drone_id : String
  pilot_id : String
  start_time : String
  end_time : String
  altitude : ℚ
  description : String
  waypoints : List Waypoint
deriving DecidableEq, Repr

/-! ## createFlight (page.tsx lines 206-249) -/

/-- Outcome of the `createFlight` submit handler before any network
activity: either the early-return validation alert (line 209, no request
is sent, no `Flight` is created), or the POST request carrying the form
payload. -/
inductive CreateFlightAction where
  | validationFailure (message : String)
  | sendRequest (payload : FlightForm)
deriving DecidableEq, Repr

/-- page.tsx lines 206-222: `createFlight` alerts and returns when
`flightForm.waypoints.length < 2`, otherwise it sends the POST request. -/
def createFlight (form : FlightForm) : CreateFlightAction :=
  if form.waypoints.length < 2 then
    .validationFailure "Необходимо указать минимум 2 точки маршрута"
  else
    .sendRequest form

/-- What the client tells the operator after a successful (`response.ok`)
flight-creation response: the rejection alert listing zone names, or the
approval alert. -/
inductive FlightReport where
  | rejectedAlert (zoneNames : List String)
  | approvedAlert
deriving DecidableEq, Repr

/-- The part of the creation response that the report branches on. -/
structure FlightResponse where
  status : FStatus
  violations : Option (List String)
deriving DecidableEq, Repr

/-- page.tsx lines 225-234: `if (newFlight.violations)` — JavaScript
truthiness of the field.  An absent (`undefined`) or `null` field is
falsy; an array is truthy, including the empty array `[]`.  So the
rejected alert is shown exactly when the field is present. -/
def reportFlight (resp : FlightResponse) : FlightReport :=
  match resp.violations with
  | some vs => .rejectedAlert vs
  | none => .approvedAlert

/-! ## Flight list rendering (page.tsx lines 755-802) -/

/-- page.tsx lines 790-797: inside the flight list, the
"Запустить симуляцию" button is rendered under
`{flight.status === "approved" && ...}`, and its click handler calls
`simulateFlight(flight.id)`.  The result is the flight id passed to
`simulateFlight` when the button exists, `none` when no button is
rendered. -/
def simulateFlightTrigger (f : Flight) : Option String :=
  if f.status = FStatus.approved then some f.id else none

/-! ## addWaypoint (page.tsx lines 265-270 and 695-715) -/

/-- A JavaScript number as produced by `parseFloat`: `none` models `NaN`
(empty or non-numeric input), `some x` a real numeric value. -/
abbrev JSNumber := Option ℚ

/-- JavaScript truthiness of a number: `NaN`, `0` and `-0` are falsy,
every other number is truthy. -/
def jsTruthyNum : JSNumber → Bool
  | none => false
  | some x => x != 0

/-- page.tsx lines 265-270: `addWaypoint` appends `{ lat, lng }` to
`flightForm.waypoints`. -/
def addWaypoint (form : FlightForm) (lat lng : ℚ) : FlightForm :=
  { form with waypoints := form.waypoints ++ [⟨lat, lng⟩] }

/-- page.tsx lines 697-711: the add-waypoint button handler parses both
inputs and calls `addWaypoint(lat, lng)` only under `if (lat && lng)`,
i.e. only when both parsed numbers are truthy; otherwise the form is
left unchanged. -/
def addWaypointClick (form : FlightForm) (lat lng : JSNumber) : FlightForm :=
  if jsTruthyNum lat && jsTruthyNum lng then
    addWaypoint form (lat.getD 0) (lng.getD 0)
  else
    form

/-! ## removeWaypoint (page.tsx lines 272-277) -/

/-- `prev.waypoints.filter((_, i) => i !== index)`: JavaScript
`Array.filter` with the index argument, keeping entries whose position
differs from `index`. -/
def filterIdxNe (index : Nat) (l : List Waypoint) : List Waypoint :=
  (l.enum.filter (fun p => decide (p.1 ≠ index))).map Prod.snd

/-- page.tsx lines 272-277: `removeWaypoint` replaces `waypoints` by the
index-filtered list and leaves every other form field alone. -/
def removeWaypoint (form : FlightForm) (index : Nat) : FlightForm :=
  { form with waypoints := filterIdxNe index form.waypoints }

/-! ## Status rendering helpers (page.tsx lines 279-309) -/

/-- page.tsx lines 279-292: `getStatusColor`, a `switch` on the status
string whose `default` branch returns `"text-yellow-600"` (this default
is what renders for `"pending"` as well, since there is no `"pending"`
case). -/
def getStatusColor (status : String) : String :=
  if status = "approved" then "text-green-600"
  else if status = "rejected" then "text-red-600"
  else if status = "active" then "text-blue-600"
  else if status = "completed" then "text-gray-600"
  else "text-yellow-600"

/-- page.tsx lines 294-309: `getStatusText`, a `switch` on the status
string whose `default` branch returns the input unchanged. -/
def getStatusText (status : String) : String :=
  if status = "pending" then "Ожидание"
  else if status = "approved" then "Одобрено"
  else if status = "rejected" then "Отклонено"
  else if status = "active" then "Активно"
  else if status = "completed" then "Завершено"
  else status

/-! ## Websocket telemetry handler (page.tsx lines 121-133) -/

/-- An incoming websocket message: a typed telemetry message
`{ type: "telemetry", data: ... }`, or any message whose `type` field is
not `"telemetry"`. -/
inductive WsMessage where
  | telemetry (data : TelemetryData)
  | other
deriving DecidableEq, Repr

/-- The `telemetryData` React state: a map from drone id to the list of
stored samples, a missing key reading as `[]`
(`prev[telemetry.drone_id] || []`). -/
def TelemetryState : Type := String → List TelemetryData

/-- JavaScript `list.slice(-n)` for `n > 0`: the last `min(n, length)`
elements, in order (`slice` with a negative start clamps
`length - n` at `0`). -/
def jsSliceLast (n : Nat) (l : List TelemetryData) : List TelemetryData :=
  l.drop (l.length - n)

/-- page.tsx lines 121-133: the `onmessage` handler.  Only messages with
`type === "telemetry"` touch the state; such a message spreads the
previous map and rebinds only the key `telemetry.drone_id` to
`[...(prev[drone_id] || []), telemetry].slice(-50)`. -/
def wsStep (s : TelemetryState) : WsMessage → TelemetryState
  | .telemetry t => fun id =>
      if id = t.drone_id then jsSliceLast 50 (s t.drone_id ++ [t]) else s id
  | .other => s

/-- The state after a sequence of websocket messages, starting from the
initial empty map `{}`. -/
def wsRun (ms : List WsMessage) : TelemetryState :=
  ms.foldl wsStep (fun _ => [])

/-- The samples carried by telemetry messages for a given drone id, in
arrival order. -/
def samplesFor (id : String) (ms : List WsMessage) : List TelemetryData :=
  ms.filterMap (fun m =>
    match m with
    | .telemetry t => if t.drone_id = id then some t else none
    | .other => none)

/-! ## GeofenceEngine (spec §4.1) -/

/-- Modelled from the spec: the GeofenceEngine is server-side code that
is not part of the repository source (only the client is).  Point-in-
rectangle with inclusive bounds — boundary counts as inside (spec §4.1). -/
def pointInZone (p : Waypoint) (z : RestrictedZone) : Bool :=
  decide (z.bounds.south ≤ p.lat) && decide (p.lat ≤ z.bounds.north) &&
  decide (z.bounds.west ≤ p.lng) && decide (p.lng ≤ z.bounds.east)

/-- Modelled from the spec: the four half-plane constraints of the
Liang–Barsky clip of the segment `a → b` against the rectangle of `z`,
as pairs `(p, q)` meaning the constraint `p * t ≤ q` on the segment
parameter `t` (left, right, bottom, top). -/
def lbPlanes (a b : Waypoint) (z : RestrictedZone) : List (ℚ × ℚ) :=
  let dx := b.lng - a.lng
  let dy := b.lat - a.lat
  [(-dx, a.lng - z.bounds.west),
   (dx, z.bounds.east - a.lng),
   (-dy, a.lat - z.bounds.south),
   (dy, z.bounds.north - a.lat)]

/-- Modelled from the spec: parametric clipping against the half-planes,
tracking the surviving parameter interval `[tE, tX]`.  A constraint with
`p = 0` rejects outright when infeasible (`q < 0`); `p < 0` raises the
entry parameter, `p > 0` lowers the exit parameter. -/
def lbRun : List (ℚ × ℚ) → ℚ → ℚ → Option (ℚ × ℚ)
  | [], tE, tX => some (tE, tX)
  | (p, q) :: rest, tE, tX =>
    if p = 0 then
      if q < 0 then none else lbRun rest tE tX
    else if p < 0 then
      lbRun rest (max tE (q / p)) tX
    else
      lbRun rest tE (min tX (q / p))

/-- Modelled from the spec: an intersection exists iff
`t_enter ≤ t_exit` survives clipping against all planes; starting from
the interval `[0, 1]` makes the overlap-with-`[0,1]` requirement part of
the clip. -/
def lbFeasible (planes : List (ℚ × ℚ)) (tE tX : ℚ) : Bool :=
  match lbRun planes tE tX with
  | some (e, x) => decide (e ≤ x)
  | none => false

/-- Modelled from the spec: segment–rectangle intersection test of
GeofenceEngine.  A single-point "segment" (duplicate consecutive
waypoints) degrades to a point-in-rectangle test; otherwise the
Liang–Barsky clip decides. -/
def segIntersectsZone (a b : Waypoint) (z : RestrictedZone) : Bool :=
  if a = b then pointInZone a z
  else lbFeasible (lbPlanes a b z) 0 1

/-- Modelled from the spec: whether any consecutive waypoint pair
(segment) of the route intersects the zone's rectangle. -/
def routeHitsZone (z : RestrictedZone) : List Waypoint → Bool
  | a :: b :: rest => segIntersectsZone a b z || routeHitsZone z (b :: rest)
  | _ => false

/-- Modelled from the spec:
`checkViolations(route, zones) → set of zone identifiers` — the
identifiers of all zones intersected by any segment of the route. -/
def checkViolations (route : List Waypoint) (zones : List RestrictedZone) :
    List String :=
  (zones.filter (fun z => routeHitsZone z route)).map (fun z => z.name)

/-- The position on the segment `a → b` at parameter `t ∈ [0, 1]`
(linear interpolation); used to state what the clipping test decides. -/
def segPoint (a b : Waypoint) (t : ℚ) : Waypoint :=
  ⟨a.lat + t * (b.lat - a.lat), a.lng + t * (b.lng - a.lng)⟩

/-! ## Flight registry state machine (spec §4.2, §4.3) -/

/-- Modelled from the spec: a flight record as owned by FlightRegistry —
server-side code that is not part of the repository source.  The
registry keeps a status and a violations set (zone identifiers); the
client's optional `violations` field reads an absent value as the empty
set. -/
structure FlightRec where
  status : FStatus
  violations : List String
deriving DecidableEq, Repr

/-- Modelled from the spec: the transitions of the per-flight state
machine (spec §4.2).  Only FlightAuthorizer moves
`pending → {approved, rejected}`, committing the GeofenceEngine result
`vs`: `rejected` with that violation set if it is non-empty, else
`approved` with the empty set (spec §4.3); the simulation trigger moves
`approved → active` and the simulator `active → completed`, touching
only the status. -/
inductive RegStep : FlightRec → FlightRec → Prop where
  | authorize (f : FlightRec) (vs : List String) :
      f.status = FStatus.pending →
      RegStep f (if vs = [] then ⟨FStatus.approved, []⟩
                 else ⟨FStatus.rejected, vs⟩)
  | simulate (f : FlightRec) :
      f.status = FStatus.approved →
      RegStep f ⟨FStatus.active, f.violations⟩
  | complete (f : FlightRec) :
      f.status = FStatus.active →
      RegStep f ⟨FStatus.completed, f.violations⟩

/-- Modelled from the spec: the flight records the system can ever hold.
Creating a flight initializes `status = pending` with empty violations
(spec §4.2); everything else is reached through `RegStep`. -/
inductive RegReachable : FlightRec → Prop where
  | created : RegReachable ⟨FStatus.pending, []⟩
  | step {f g : FlightRec} : RegReachable f → RegStep f g → RegReachable g

/-! ## Concrete fixtures used by witnesses -/

/-- An empty flight form (the reset state of page.tsx lines 235-243,
with the default altitude 50). -/
def emptyForm : FlightForm :=
  { drone_id := "", pilot_id := "", start_time := "", end_time := "",
    altitude := 50, description := "", waypoints := [] }

/-- A concrete approved flight. -/
def testFlightApproved : Flight :=
  { id := "f1", drone_id := "d1", pilot_id := "p1", start_time := "s",
    end_time := "e", altitude := 50,
    waypoints := [⟨51, 71⟩, ⟨52, 72⟩], description := none,
    status := FStatus.approved, created_at := "c", violations := none }

/-- A concrete telemetry sample for drone `"d1"`. -/
def testSample : TelemetryData :=
  { drone_id := "d1", lat := 51, lng := 71, altitude := 50, speed := 10,
    battery := 100, timestamp := "t0" }

/-- The empty telemetry map. -/
def emptyTelemetry : TelemetryState := fun _ => []

/-- A flight form holding a three-point route. -/
def routeForm : FlightForm :=
  { emptyForm with waypoints := [⟨1, 2⟩, ⟨3, 4⟩, ⟨5, 6⟩] }

/-! ## List lemmas for the telemetry window -/

theorem jsSliceLast_nil (n : Nat) : jsSliceLast n [] = [] := by
  simp [jsSliceLast]

theorem jsSliceLast_absorb (n : Nat) (xs ys : List TelemetryData) :
    jsSliceLast n (jsSliceLast n xs ++ ys) = jsSliceLast n (xs ++ ys) := by
  unfold jsSliceLast
  rcases le_or_lt xs.length n with h | h
  · have hd : xs.length - n = 0 := by omega
    rw [hd, List.drop_zero]
  · have hlen : (List.drop (xs.length - n) xs).length = n := by
      rw [List.length_drop]; omega
    have e1 : (List.drop (xs.length - n) xs ++ ys).length = n + ys.length := by
      rw [List.length_append, hlen]
    have e2 : (xs ++ ys).length = xs.length + ys.length :=
      List.length_append xs ys
    rcases le_or_lt ys.length n with hy | hy
    · have h1 : (List.drop (xs.length - n) xs ++ ys).length - n ≤
          (List.drop (xs.length - n) xs).length := by omega
      have h2 : (xs ++ ys).length - n ≤ xs.length := by omega
      rw [List.drop_append_of_le_length h1, List.drop_append_of_le_length h2,
        List.drop_drop]
      have h3 : xs.length - n +
          ((List.drop (xs.length - n) xs ++ ys).length - n) =
          (xs ++ ys).length - n := by omega
      rw [h3]
    · have h1 : (List.drop (xs.length - n) xs ++ ys).length - n =
          (List.drop (xs.length - n) xs).length + (ys.length - n) := by omega
      have h2 : (xs ++ ys).length - n = xs.length + (ys.length - n) := by
        omega
      rw [h1, h2, List.drop_append, List.drop_append]

theorem jsSliceLast_length (n : Nat) (l : List TelemetryData) :
    (jsSliceLast n l).length = min l.length n := by
  unfold jsSliceLast
  rw [List.length_drop]
  omega

theorem jsSliceLast_suffix (n : Nat) (l : List TelemetryData) :
    jsSliceLast n l <:+ l :=
  List.drop_suffix _ _

theorem jsSliceLast_concat_getLast (n : Nat) (xs : List TelemetryData)
    (t : TelemetryData) (hn : 0 < n) :
    (jsSliceLast n (xs ++ [t])).getLast? = some t := by
  unfold jsSliceLast
  have hk : (xs ++ [t]).length - n ≤ xs.length := by
    rw [List.length_append]; simp; omega
  rw [List.drop_append_of_le_length hk, List.getLast?_concat]

/-! ## List lemmas for removeWaypoint -/

theorem filterIdxNe_enumFrom_of_lt (l : List Waypoint) (k i : Nat)
    (h : i < k) :
    ((List.enumFrom k l).filter (fun p => decide (p.1 ≠ i))).map Prod.snd
      = l := by
  induction l generalizing k with
  | nil => rfl
  | cons a tl ih =>
    rw [List.enumFrom_cons, List.filter_cons]
    have hc : decide ((k, a).1 ≠ i) = true := decide_eq_true (by omega)
    rw [if_pos hc, List.map_cons]
    show a :: _ = a :: tl
    rw [ih (k + 1) (by omega)]

theorem filterIdxNe_enumFrom (l : List Waypoint) (k j : Nat) :
    ((List.enumFrom k l).filter (fun p => decide (p.1 ≠ (k + j)))).map
        Prod.snd
      = l.eraseIdx j := by
  induction l generalizing k j with
  | nil => rfl
  | cons a tl ih =>
    rw [List.enumFrom_cons, List.filter_cons]
    cases j with
    | zero =>
      have hc : ¬(decide ((k, a).1 ≠ k + 0) = true) := by
        rw [decide_eq_false (by omega)]
        exact Bool.false_ne_true
      rw [if_neg hc, List.eraseIdx_cons_zero]
      exact filterIdxNe_enumFrom_of_lt tl (k + 1) (k + 0) (by omega)
    | succ j' =>
      have hc : decide ((k, a).1 ≠ k + (j' + 1)) = true :=
        decide_eq_true (by omega)
      rw [if_pos hc, List.map_cons]
      show a :: _ = _
      rw [List.eraseIdx_cons_succ]
      have harg : k + (j' + 1) = (k + 1) + j' := by omega
      rw [harg, ih (k + 1) j']

theorem filterIdxNe_eq_eraseIdx (i : Nat) (l : List Waypoint) :
    filterIdxNe i l = l.eraseIdx i := by
  have h := filterIdxNe_enumFrom l 0 i
  rw [Nat.zero_add] at h
  exact h

/-! ## Behaviour of the websocket handler over message sequences -/

theorem samplesFor_append (id : String) (ms ns : List WsMessage) :
    samplesFor id (ms ++ ns) = samplesFor id ms ++ samplesFor id ns := by
  unfold samplesFor
  rw [List.filterMap_append]

theorem wsRun_eq_slice (ms : List WsMessage) (id : String) :
    wsRun ms id = jsSliceLast 50 (samplesFor id ms) := by
  induction ms using List.reverseRecOn with
  | nil => rfl
  | append_singleton ms m ih =>
    show (List.foldl wsStep (fun _ => []) (ms ++ [m])) id = _
    rw [List.foldl_append]
    have hfold : List.foldl wsStep (fun _ => []) ms = wsRun ms := rfl
    rw [hfold, samplesFor_append]
    cases m with
    | other =>
      show wsRun ms id = _
      rw [ih]
      have hs : samplesFor id [WsMessage.other] = [] := rfl
      rw [hs, List.append_nil]
    | telemetry t =>
      show wsStep (wsRun ms) (WsMessage.telemetry t) id = _
      by_cases hid : id = t.drone_id
      · subst hid
        have hone : samplesFor t.drone_id [WsMessage.telemetry t] = [t] := by
          simp [samplesFor]
        rw [hone]
        show (if t.drone_id = t.drone_id then
            jsSliceLast 50 (wsRun ms t.drone_id ++ [t])
          else wsRun ms t.drone_id) = _
        rw [if_pos rfl, ih, jsSliceLast_absorb]
      · have hone : samplesFor id [WsMessage.telemetry t] = [] := by
          simp [samplesFor, Ne.symm hid]
        rw [hone, List.append_nil]
        show (if id = t.drone_id then
            jsSliceLast 50 (wsRun ms t.drone_id ++ [t])
          else wsRun ms id) = _
        rw [if_neg hid, ih]

/-! ## What the Liang-Barsky clip decides -/

theorem lbFeasible_iff (L : List (ℚ × ℚ)) (tE tX : ℚ) :
    lbFeasible L tE tX = true ↔
      ∃ t : ℚ, tE ≤ t ∧ t ≤ tX ∧ ∀ pq ∈ L, pq.1 * t ≤ pq.2 := by
  induction L generalizing tE tX with
  | nil =>
    simp only [lbFeasible, lbRun, decide_eq_true_eq, List.not_mem_nil,
      false_implies, implies_true, and_true]
    constructor
    · exact fun h => ⟨tE, le_refl tE, h⟩
    · rintro ⟨t, h1, h2⟩
      exact le_trans h1 h2
  | cons pq rest ih =>
    obtain ⟨p, q⟩ := pq
    show (match lbRun ((p, q) :: rest) tE tX with
      | some (e, x) => decide (e ≤ x)
      | none => false) = true ↔ _
    rw [lbRun]
    by_cases hp0 : p = 0
    · subst hp0
      rw [if_pos rfl]
      by_cases hq : q < 0
      · rw [if_pos hq]
        simp only [List.forall_mem_cons]
        constructor
        · intro h
          exact absurd h (by simp)
        · rintro ⟨t, -, -, hhead, -⟩
          rw [zero_mul] at hhead
          exact absurd hq (not_lt.mpr hhead)
      · rw [if_neg hq]
        have hq' : 0 ≤ q := not_lt.mp hq
        show lbFeasible rest tE tX = true ↔ _
        rw [ih]
        simp only [List.forall_mem_cons, zero_mul]
        constructor
        · rintro ⟨t, h1, h2, h3⟩
          exact ⟨t, h1, h2, hq', h3⟩
        · rintro ⟨t, h1, h2, -, h3⟩
          exact ⟨t, h1, h2, h3⟩
    · rw [if_neg hp0]
      by_cases hpneg : p < 0
      · rw [if_pos hpneg]
        show lbFeasible rest (max tE (q / p)) tX = true ↔ _
        rw [ih]
        simp only [List.forall_mem_cons]
        constructor
        · rintro ⟨t, h1, h2, h3⟩
          obtain ⟨h1a, h1b⟩ := max_le_iff.mp h1
          have hhead : t * p ≤ q := (div_le_iff_of_neg hpneg).mp h1b
          exact ⟨t, h1a, h2, by linarith, h3⟩
        · rintro ⟨t, h1, h2, hhead, h3⟩
          refine ⟨t, max_le_iff.mpr ⟨h1, ?_⟩, h2, h3⟩
          exact (div_le_iff_of_neg hpneg).mpr (by linarith)
      · have hppos : 0 < p := lt_of_le_of_ne (not_lt.mp hpneg) (Ne.symm hp0)
        rw [if_neg hpneg]
        show lbFeasible rest tE (min tX (q / p)) = true ↔ _
        rw [ih]
        simp only [List.forall_mem_cons]
        constructor
        · rintro ⟨t, h1, h2, h3⟩
          obtain ⟨h2a, h2b⟩ := le_min_iff.mp h2
          have hhead : t * p ≤ q := (le_div_iff₀ hppos).mp h2b
          exact ⟨t, h1, h2a, by linarith, h3⟩
        · rintro ⟨t, h1, h2, hhead, h3⟩
          refine ⟨t, h1, le_min_iff.mpr ⟨h2, ?_⟩, h3⟩
          exact (le_div_iff₀ hppos).mpr (by linarith)

theorem segPoint_self (a : Waypoint) (t : ℚ) : segPoint a a t = a := by
  simp [segPoint]

theorem segPoint_reverse (a b : Waypoint) (t : ℚ) :
    segPoint b a (1 - t) = segPoint a b t := by
  simp only [segPoint, Waypoint.mk.injEq]
  constructor <;> ring

theorem segIntersectsZone_iff (a b : Waypoint) (z : RestrictedZone) :
    segIntersectsZone a b z = true ↔
      ∃ t : ℚ, 0 ≤ t ∧ t ≤ 1 ∧ pointInZone (segPoint a b t) z = true := by
  by_cases hab : a = b
  · subst hab
    rw [segIntersectsZone, if_pos rfl]
    constructor
    · intro h
      exact ⟨0, le_refl 0, by norm_num, by rwa [segPoint_self]⟩
    · rintro ⟨t, -, -, h⟩
      rwa [segPoint_self] at h
  · rw [segIntersectsZone, if_neg hab, lbFeasible_iff]
    apply exists_congr
    intro t
    apply and_congr_right
    intro h0
    apply and_congr_right
    intro h1
    simp only [lbPlanes, List.forall_mem_cons, List.not_mem_nil,
      false_implies, implies_true, and_true, pointInZone, segPoint,
      Bool.and_eq_true, decide_eq_true_eq]
    constructor
    · rintro ⟨c1, c2, c3, c4⟩
      exact ⟨⟨⟨by linarith, by linarith⟩, by linarith⟩, by linarith⟩
    · rintro ⟨⟨⟨c1, c2⟩, c3⟩, c4⟩
      exact ⟨by linarith, by linarith, by linarith, by linarith⟩

theorem segIntersectsZone_true_symm (a b : Waypoint) (z : RestrictedZone)
    (h : segIntersectsZone a b z = true) :
    segIntersectsZone b a z = true := by
  rw [segIntersectsZone_iff] at h ⊢
  obtain ⟨t, h0, h1, hin⟩ := h
  refine ⟨1 - t, by linarith, by linarith, ?_⟩
  rwa [segPoint_reverse]

theorem segIntersectsZone_symm (a b : Waypoint) (z : RestrictedZone) :
    segIntersectsZone a b z = segIntersectsZone b a z := by
  by_cases hab : segIntersectsZone a b z = true
  · rw [hab, segIntersectsZone_true_symm a b z hab]
  · by_cases hba : segIntersectsZone b a z = true
    · exact absurd (segIntersectsZone_true_symm b a z hba) hab
    · rw [Bool.not_eq_true] at hab hba
      rw [hab, hba]

theorem routeHitsZone_eq_false_iff_chain (z : RestrictedZone)
    (l : List Waypoint) :
    routeHitsZone z l = false ↔
      List.Chain' (fun a b => segIntersectsZone a b z = false) l := by
  induction l with
  | nil => simp [routeHitsZone]
  | cons a tl ih =>
    cases tl with
    | nil => simp [routeHitsZone]
    | cons b rest =>
      rw [routeHitsZone, List.chain'_cons, Bool.or_eq_false_iff, ih]

theorem routeHitsZone_reverse (z : RestrictedZone) (l : List Waypoint) :
    routeHitsZone z l.reverse = routeHitsZone z l := by
  have key : routeHitsZone z l.reverse = false ↔
      routeHitsZone z l = false := by
    rw [routeHitsZone_eq_false_iff_chain, routeHitsZone_eq_false_iff_chain,
      List.chain'_reverse]
    constructor
    · intro h
      refine h.imp ?_
      intro x y hxy
      rw [segIntersectsZone_symm]
      exact hxy
    · intro h
      refine h.imp ?_
      intro x y hxy
      rw [segIntersectsZone_symm] at hxy
      exact hxy
  by_cases h : routeHitsZone z l = false
  · rw [h, key.mpr h]
  · rw [Bool.not_eq_false] at h
    by_cases h2 : routeHitsZone z l.reverse = false
    · rw [key.mp h2] at h
      exact absurd h (by simp)
    · rw [Bool.not_eq_false] at h2
      rw [h, h2]


/-! ## Claim theorems -/

/-- Claim C1: for every flight record the system can hold, the
violations list is non-empty if and only if the status is `rejected`,
and `approved` implies the violations list is empty.  The records the
system can hold are those reachable through the registry's state
machine. -/
theorem reachable_flight_violations_iff_rejected (f : FlightRec)
    (h : RegReachable f) :
    (f.violations ≠ [] ↔ f.status = FStatus.rejected) ∧
    (f.status = FStatus.approved → f.violations = []) := by
  induction h with
  | created => simp
  | step hr hs ih =>
    rename_i fpre gpost
    obtain ⟨ih1, ih2⟩ := ih
    cases hs with
    | authorize vs hpend =>
      by_cases hvs : vs = []
      · subst hvs
        simp
      · rw [if_neg hvs]
        simp [hvs]
    | simulate happr =>
      have hv : fpre.violations = [] := ih2 happr
      simp [hv]
    | complete hact =>
      have hv : fpre.violations = [] := by
        by_contra hne
        have h2 := ih1.mp hne
        rw [hact] at h2
        exact FStatus.noConfusion h2
      simp [hv]

/-- Witness for C1: the invariant evaluated at the freshly created
pending record. -/
theorem reachable_flight_violations_iff_rejected_witness :
    (({ status := FStatus.pending, violations := [] } :
        FlightRec).violations ≠ [] ↔
      ({ status := FStatus.pending, violations := [] } :
        FlightRec).status = FStatus.rejected) ∧
    (({ status := FStatus.pending, violations := [] } :
        FlightRec).status = FStatus.approved →
      ({ status := FStatus.pending, violations := [] } :
        FlightRec).violations = []) :=
  reachable_flight_violations_iff_rejected _ RegReachable.created

/-- Counterexample to C2 as stated: a successful creation response with
`status = approved` and `violations = []` (the field present but empty)
is *not* reported as approved — the empty array is truthy in
JavaScript, so the client shows the rejection alert with an empty zone
list. -/
theorem reportFlight_empty_array_counterexample :
    ({ status := FStatus.approved, violations := some [] } :
        FlightResponse).status ≠ FStatus.rejected ∧
    reportFlight { status := FStatus.approved, violations := some [] }
      ≠ FlightReport.approvedAlert ∧
    reportFlight { status := FStatus.approved, violations := some [] }
      = FlightReport.rejectedAlert [] := by
  refine ⟨by decide, by decide, rfl⟩

/-- Claim C2 (amended): the client reports the flight as rejected,
listing the carried zone names, exactly when the response's
`violations` field is present — even when it is the empty array and the
status is `approved` — and reports it as approved exactly when the
field is absent. -/
theorem reportFlight_iff_violations_present (resp : FlightResponse) :
    (∀ vs, resp.violations = some vs →
      reportFlight resp = FlightReport.rejectedAlert vs) ∧
    (resp.violations = none →
      reportFlight resp = FlightReport.approvedAlert) := by
  constructor
  · intro vs h
    simp [reportFlight, h]
  · intro h
    simp [reportFlight, h]

/-- Witness for the amended C2: a response with a present (empty)
violations list is reported rejected; a response with an absent field
is reported approved. -/
theorem reportFlight_iff_violations_present_witness :
    reportFlight { status := FStatus.approved, violations := some [] }
      = FlightReport.rejectedAlert [] ∧
    reportFlight { status := FStatus.pending, violations := none }
      = FlightReport.approvedAlert :=
  ⟨(reportFlight_iff_violations_present
      { status := FStatus.approved, violations := some [] }).1 [] rfl,
   (reportFlight_iff_violations_present
      { status := FStatus.pending, violations := none }).2 rfl⟩

/-- Claim C3: `checkViolations` returns the same zone identifiers for a
route and for its reversal (route direction does not change which zones
are flagged). -/
theorem checkViolations_reverse_invariant (route : List Waypoint)
    (zones : List RestrictedZone) :
    checkViolations route zones = checkViolations route.reverse zones := by
  unfold checkViolations
  have hfilter : zones.filter (fun z => routeHitsZone z route) =
      zones.filter (fun z => routeHitsZone z route.reverse) := by
    apply List.filter_congr
    intro z _
    rw [routeHitsZone_reverse]
  rw [hfilter]

/-- Claim C4: a submission whose waypoint list has fewer than 2 entries
is reported as a validation failure and no flight-creation request is
sent. -/
theorem createFlight_too_few_waypoints (form : FlightForm)
    (h : form.waypoints.length < 2) :
    createFlight form = CreateFlightAction.validationFailure
        "Необходимо указать минимум 2 точки маршрута" ∧
    ∀ payload, createFlight form ≠ CreateFlightAction.sendRequest payload := by
  constructor
  · rw [createFlight, if_pos h]
  · intro payload hc
    rw [createFlight, if_pos h] at hc
    exact CreateFlightAction.noConfusion hc

/-- Witness for C4: the empty form (zero waypoints) is reported as a
validation failure. -/
theorem createFlight_too_few_waypoints_witness :
    createFlight emptyForm = CreateFlightAction.validationFailure
        "Необходимо указать минимум 2 точки маршрута" :=
  (createFlight_too_few_waypoints emptyForm (by decide)).1

/-- Claim C5: after any sequence of websocket messages, the stored list
for each drone id is exactly the last `min(n, 50)` samples received for
that drone in arrival order (`jsSliceLast 50` of the full arrival
sequence, a suffix of it of length `min n 50`, never longer than 50). -/
theorem telemetry_window_last_50 (ms : List WsMessage) (id : String) :
    wsRun ms id = jsSliceLast 50 (samplesFor id ms) ∧
    (wsRun ms id).length = min (samplesFor id ms).length 50 ∧
    (wsRun ms id).length ≤ 50 ∧
    wsRun ms id <:+ samplesFor id ms := by
  refine ⟨wsRun_eq_slice ms id, ?_, ?_, ?_⟩
  · rw [wsRun_eq_slice, jsSliceLast_length]
  · rw [wsRun_eq_slice, jsSliceLast_length]
    omega
  · rw [wsRun_eq_slice]
    exact jsSliceLast_suffix _ _

/-- Claim C6: one websocket message changes the telemetry state only if
its type is `"telemetry"`; such a message rebinds only the key
`drone_id` of its sample, to the previous list with the sample appended
(then windowed), so the new list ends with the sample and is a suffix
of the appended list; every other drone's list is untouched. -/
theorem wsStep_telemetry_frame (s : TelemetryState) (t : TelemetryData)
    (id : String) :
    wsStep s WsMessage.other = s ∧
    (id ≠ t.drone_id → wsStep s (WsMessage.telemetry t) id = s id) ∧
    wsStep s (WsMessage.telemetry t) t.drone_id
      = jsSliceLast 50 (s t.drone_id ++ [t]) ∧
    (wsStep s (WsMessage.telemetry t) t.drone_id).getLast? = some t ∧
    wsStep s (WsMessage.telemetry t) t.drone_id <:+ s t.drone_id ++ [t] := by
  refine ⟨rfl, ?_, ?_, ?_, ?_⟩
  · intro h
    show (if id = t.drone_id then
        jsSliceLast 50 (s t.drone_id ++ [t]) else s id) = s id
    rw [if_neg h]
  · show (if t.drone_id = t.drone_id then
        jsSliceLast 50 (s t.drone_id ++ [t]) else s t.drone_id) = _
    rw [if_pos rfl]
  · show (if t.drone_id = t.drone_id then
        jsSliceLast 50 (s t.drone_id ++ [t])
      else s t.drone_id).getLast? = some t
    rw [if_pos rfl]
    exact jsSliceLast_concat_getLast 50 _ t (by norm_num)
  · show (if t.drone_id = t.drone_id then
        jsSliceLast 50 (s t.drone_id ++ [t])
      else s t.drone_id) <:+ s t.drone_id ++ [t]
    rw [if_pos rfl]
    exact jsSliceLast_suffix _ _

/-- Witness for C6: a telemetry message for drone `"d1"` leaves the list
of a different drone id unchanged. -/
theorem wsStep_telemetry_frame_witness :
    wsStep emptyTelemetry (WsMessage.telemetry testSample) "d2"
      = emptyTelemetry "d2" :=
  (wsStep_telemetry_frame emptyTelemetry testSample "d2").2.1 (by decide)

/-- Claim C7: the flight list offers the simulation trigger (a button
calling `simulateFlight(flight.id)`) if and only if the flight's status
is `approved`. -/
theorem simulateFlight_trigger_iff_approved (f : Flight) :
    (f.status = FStatus.approved → simulateFlightTrigger f = some f.id) ∧
    (f.status ≠ FStatus.approved → simulateFlightTrigger f = none) ∧
    ∀ fid, simulateFlightTrigger f = some fid →
      f.status = FStatus.approved ∧ fid = f.id := by
  refine ⟨?_, ?_, ?_⟩
  · intro h
    rw [simulateFlightTrigger, if_pos h]
  · intro h
    rw [simulateFlightTrigger, if_neg h]
  · intro fid h
    by_cases hs : f.status = FStatus.approved
    · rw [simulateFlightTrigger, if_pos hs] at h
      exact ⟨hs, (Option.some.inj h).symm⟩
    · rw [simulateFlightTrigger, if_neg hs] at h
      exact absurd h (by simp)

/-- Witness for C7: an approved flight exposes the trigger carrying its
own id. -/
theorem simulateFlight_trigger_iff_approved_witness :
    simulateFlightTrigger testFlightApproved = some "f1" :=
  (simulateFlight_trigger_iff_approved testFlightApproved).1 rfl

/-- Claim C8: the add-waypoint button appends a waypoint only when both
parsed coordinates are truthy; a parsed latitude or longitude equal to
0 or NaN leaves the waypoint list (indeed the whole form) unchanged. -/
theorem addWaypoint_truthiness_gate (form : FlightForm)
    (lat lng : JSNumber) :
    (∀ x y : ℚ, lat = some x → lng = some y → x ≠ 0 → y ≠ 0 →
      (addWaypointClick form lat lng).waypoints
        = form.waypoints ++ [⟨x, y⟩]) ∧
    (jsTruthyNum lat = false ∨ jsTruthyNum lng = false →
      addWaypointClick form lat lng = form) ∧
    addWaypointClick form (some 0) lng = form ∧
    addWaypointClick form none lng = form ∧
    addWaypointClick form lat (some 0) = form ∧
    addWaypointClick form lat none = form := by
  refine ⟨?_, ?_, ?_, ?_, ?_, ?_⟩
  · intro x y hx hy hx0 hy0
    subst hx
    subst hy
    have h1 : jsTruthyNum (some x) = true := by
      simp [jsTruthyNum, hx0]
    have h2 : jsTruthyNum (some y) = true := by
      simp [jsTruthyNum, hy0]
    simp [addWaypointClick, h1, h2, addWaypoint]
  · intro h
    rcases h with h | h <;> simp [addWaypointClick, h]
  · simp [addWaypointClick, jsTruthyNum]
  · simp [addWaypointClick, jsTruthyNum]
  · simp [addWaypointClick, jsTruthyNum]
  · simp [addWaypointClick, jsTruthyNum]

/-- Witness for C8: truthy coordinates `(3, 5)` are appended; a zero or
NaN latitude leaves the form unchanged. -/
theorem addWaypoint_truthiness_gate_witness :
    (addWaypointClick emptyForm (some 3) (some 5)).waypoints
      = emptyForm.waypoints ++ [⟨3, 5⟩] ∧
    addWaypointClick emptyForm (some 0) (some 5) = emptyForm ∧
    addWaypointClick emptyForm none (some 5) = emptyForm :=
  ⟨(addWaypoint_truthiness_gate emptyForm (some 3) (some 5)).1 3 5 rfl rfl
      (by norm_num) (by norm_num),
   (addWaypoint_truthiness_gate emptyForm (some 0) (some 5)).2.2.1,
   (addWaypoint_truthiness_gate emptyForm none (some 5)).2.2.2.1⟩

/-- Claim C9: `removeWaypoint i` removes exactly the waypoint at
position `i` (the list becomes `take i ++ drop (i+1)`, preserving the
order of the rest), leaves the list unchanged when `i` is out of range,
and never touches any other form field. -/
theorem removeWaypoint_removes_index (form : FlightForm) (i : Nat) :
    (removeWaypoint form i).waypoints = form.waypoints.eraseIdx i ∧
    (i < form.waypoints.length →
      (removeWaypoint form i).waypoints
        = form.waypoints.take i ++ form.waypoints.drop (i + 1)) ∧
    (form.waypoints.length ≤ i → removeWaypoint form i = form) ∧
    (removeWaypoint form i).drone_id = form.drone_id ∧
    (removeWaypoint form i).pilot_id = form.pilot_id ∧
    (removeWaypoint form i).start_time = form.start_time ∧
    (removeWaypoint form i).end_time = form.end_time ∧
    (removeWaypoint form i).altitude = form.altitude ∧
    (removeWaypoint form i).description = form.description := by
  have hw : (removeWaypoint form i).waypoints
      = form.waypoints.eraseIdx i := by
    show filterIdxNe i form.waypoints = _
    exact filterIdxNe_eq_eraseIdx i form.waypoints
  refine ⟨hw, ?_, ?_, rfl, rfl, rfl, rfl, rfl, rfl⟩
  · intro hlt
    rw [hw, List.eraseIdx_eq_take_drop_succ]
  · intro hge
    show { form with waypoints := filterIdxNe i form.waypoints } = form
    rw [filterIdxNe_eq_eraseIdx, List.eraseIdx_of_length_le hge]

/-- Witness for C9: removing index 1 of a three-point route drops the
middle waypoint; removing index 5 changes nothing. -/
theorem removeWaypoint_removes_index_witness :
    (removeWaypoint routeForm 1).waypoints
      = routeForm.waypoints.take 1 ++ routeForm.waypoints.drop 2 ∧
    removeWaypoint routeForm 5 = routeForm :=
  ⟨(removeWaypoint_removes_index routeForm 1).2.1 (by decide),
   (removeWaypoint_removes_index routeForm 5).2.2.1 (by decide)⟩

/-- Claim C10: `getStatusText` and `getStatusColor` are total: on any
status string outside the five known cases, the text falls back to the
input itself and the color to `"text-yellow-600"`, the same class the
`pending` status renders with. -/
theorem status_render_total_default (s : String)
    (h1 : s ≠ "pending") (h2 : s ≠ "approved") (h3 : s ≠ "rejected")
    (h4 : s ≠ "active") (h5 : s ≠ "completed") :
    getStatusText s = s ∧ getStatusColor s = "text-yellow-600" ∧
    getStatusColor "pending" = "text-yellow-600" := by
  refine ⟨?_, ?_, ?_⟩
  · simp [getStatusText, h1, h2, h3, h4, h5]
  · simp [getStatusColor, h2, h3, h4, h5]
  · simp [getStatusColor]

/-- Witness for C10: the unknown status string `"cancelled"` renders as
itself in the default yellow, the class `"pending"` also gets. -/
theorem status_render_total_default_witness :
    getStatusText "cancelled" = "cancelled" ∧
    getStatusColor "cancelled" = "text-yellow-600" ∧
    getStatusColor "pending" = "text-yellow-600" :=
  status_render_total_default "cancelled" (by decide) (by decide)
    (by decide) (by decide) (by decide)

end UTM
